import Mathlib

/-!
Verification development for the optional-tool acquisition subsystem of
better-kenku-fm (`src/main/managers/OptionalToolManager.ts`) and its
progress-merge consumer (`src/player/features/playlists/TrackAdd.tsx`).

The TypeScript is shallowly embedded: pure logic becomes Lean functions,
filesystem / network / crypto effects become explicit state passing with
oracle parameters (`hash`, `verify`, `respond`, `fetched`), and JS `throw`
becomes `Except.error`.  JS string trimming is modelled by `jsTrim`,
WHATWG URL hostname parsing by `parseURLHostname` (a faithful-for-common-
cases model of `new URL(...).hostname`), and JSON values by the `Json`
inductive.
-/

namespace KenkuTools

/-! ## JS string trimming (`String.prototype.trim`) -/

def jsWhitespace (c : Char) : Bool := c.isWhitespace

def trimCharList (l : List Char) : List Char :=
  ((l.dropWhile jsWhitespace).reverse.dropWhile jsWhitespace).reverse

/-- Model of JavaScript `value.trim()`. -/
def jsTrim (s : String) : String := String.mk (trimCharList s.data)

theorem dropWhile_self_idem (p : Char → Bool) (l : List Char) :
    (l.dropWhile p).dropWhile p = l.dropWhile p := by
  induction l with
  | nil => simp
  | cons a l ih =>
    by_cases h : p a
    · simp [List.dropWhile_cons, h, ih]
    · simp [List.dropWhile_cons, h]

theorem dropWhile_head_shape (p : Char → Bool) (l : List Char) :
    l.dropWhile p = [] ∨ ∃ a t, l.dropWhile p = a :: t ∧ p a = false := by
  induction l with
  | nil => simp
  | cons a l ih =>
    by_cases h : p a
    · simpa [List.dropWhile_cons, h] using ih
    · exact Or.inr ⟨a, l, by simp [List.dropWhile_cons, h], by simpa using h⟩

theorem dropWhile_eq_self_of_shape (p : Char → Bool) (l : List Char)
    (h : l = [] ∨ ∃ a t, l = a :: t ∧ p a = false) :
    l.dropWhile p = l := by
  rcases h with h | ⟨a, t, rfl, ha⟩
  · simp [h]
  · simp [List.dropWhile_cons, ha]

/-- The right-trim keeps a prefix of its argument. -/
theorem rightDrop_is_prefix (p : Char → Bool) (l : List Char) :
    ∃ u, l = ((l.reverse.dropWhile p).reverse) ++ u := by
  refine ⟨(l.reverse.takeWhile p).reverse, ?_⟩
  have h := List.takeWhile_append_dropWhile (p := p) (l := l.reverse)
  have h3 : (l.reverse.dropWhile p).reverse ++ (l.reverse.takeWhile p).reverse
      = (l.reverse.takeWhile p ++ l.reverse.dropWhile p).reverse := by
    rw [List.reverse_append]
  rw [h3, h, List.reverse_reverse]

theorem trimCharList_idem (l : List Char) :
    trimCharList (trimCharList l) = trimCharList l := by
  unfold trimCharList
  set m := l.dropWhile jsWhitespace with hm
  have hshape : m = [] ∨ ∃ a t, m = a :: t ∧ jsWhitespace a = false := by
    rw [hm]; exact dropWhile_head_shape _ _
  -- the right-trimmed list r is a prefix of m, hence keeps m's head shape
  set r := (m.reverse.dropWhile jsWhitespace).reverse with hr
  have hpre : ∃ u, m = r ++ u := rightDrop_is_prefix _ m
  have hshape_r : r = [] ∨ ∃ a t, r = a :: t ∧ jsWhitespace a = false := by
    rcases hpre with ⟨u, hu⟩
    cases hr' : r with
    | nil => exact Or.inl rfl
    | cons a t =>
      rcases hshape with hm0 | ⟨b, tb, hmb, hb⟩
      · rw [hm0, hr'] at hu; simp at hu
      · refine Or.inr ⟨a, t, rfl, ?_⟩
        rw [hr', hmb] at hu
        simpa using (List.cons.inj hu).1 ▸ hb
  have h1 : r.dropWhile jsWhitespace = r := dropWhile_eq_self_of_shape _ _ hshape_r
  rw [h1]
  have h2 : (r.reverse.dropWhile jsWhitespace) = r.reverse := by
    rw [hr, List.reverse_reverse, dropWhile_self_idem]
  rw [h2, List.reverse_reverse]

theorem jsTrim_idem (s : String) : jsTrim (jsTrim s) = jsTrim s := by
  unfold jsTrim
  simp [trimCharList_idem]

/-! ## A model of WHATWG URL parsing, restricted to extracting the hostname

`parseURLHostname s` returns `some hostname` when `new URL(s)` succeeds and
`none` when it throws.  It covers the cases relevant to source strings:
scheme recognition, the special-scheme slash handling, userinfo, ports
(digits only), bracketed hosts, and opaque (non-special) URLs whose
hostname is empty. -/

/-- ASCII lowercasing, modelling JS `toLowerCase` on the hostname
(kernel-reducible, unlike `String.toLower`). -/
def lowerStr (s : String) : String := String.mk (s.data.map Char.toLower)

/-- Model of JS `String.prototype.endsWith` (kernel-reducible). -/
def strEndsWith (s suffix : String) : Bool := suffix.data.isSuffixOf s.data

def isSchemeChar (c : Char) : Bool :=
  c.isAlpha || c.isDigit || c == '+' || c == '-' || c == '.'

/-- Split a character list at the first `':'`, returning the parts before
and after it; `none` when there is no colon. -/
def splitAtColon : List Char → Option (List Char × List Char)
  | [] => none
  | c :: cs =>
    if c == ':' then some ([], cs)
    else
      match splitAtColon cs with
      | some (a, b) => some (c :: a, b)
      | none => none

def specialSchemes : List String := ["http", "https", "ws", "wss", "ftp", "file"]

def authorityEnd (c : Char) : Bool := c == '/' || c == '?' || c == '#' || c == '\\'

/-- The host begins after the last `'@'` of the authority. -/
def afterLastAt (l : List Char) : List Char :=
  (l.reverse.takeWhile (fun c => !(c == '@'))).reverse

/-- Split an authority (userinfo already removed) into host and port
characters; `none` models a parse failure (unclosed bracket, junk after a
bracketed host). -/
def splitHostPort : List Char → Option (List Char × List Char)
  | '[' :: rest =>
    let inside := rest.takeWhile (fun c => !(c == ']'))
    match rest.dropWhile (fun c => !(c == ']')) with
    | ']' :: tail =>
      match tail with
      | [] => some ('[' :: (inside ++ [']']), [])
      | ':' :: port => some ('[' :: (inside ++ [']']), port)
      | _ => none
    | _ => none
  | l =>
    match splitAtColon l with
    | some (h, p) => some (h, p)
    | none => some (l, [])

def forbiddenHostChar (c : Char) : Bool :=
  c == ' ' || c == '#' || c == '%' || c == '/' || c == ':' || c == '<' || c == '>' ||
    c == '?' || c == '@' || c == '[' || c == ']' || c == '\\' || c == '^' || c == '|'

def parseAuthorityHost (scheme : String) (auth : List Char) : Option String :=
  let hostPort := afterLastAt auth
  match splitHostPort hostPort with
  | none => none
  | some (h, port) =>
    if !(port.all Char.isDigit) then none
    else if h.isEmpty then (if scheme == "file" then some "" else none)
    else if h.any forbiddenHostChar then none
    else some (lowerStr (String.mk h))

/-- Model of `new URL(s).hostname` (`none` = the constructor throws). -/
def parseURLHostname (s : String) : Option String :=
  match splitAtColon s.data with
  | none => none
  | some (schemeCs, rest) =>
    match schemeCs with
    | [] => none
    | c0 :: restScheme =>
      if !(c0.isAlpha && restScheme.all isSchemeChar) then none
      else
        let scheme := lowerStr (String.mk schemeCs)
        if specialSchemes.contains scheme then
          let afterSlashes := rest.dropWhile (fun c => c == '/' || c == '\\')
          parseAuthorityHost scheme (afterSlashes.takeWhile (fun c => !(authorityEnd c)))
        else
          match rest with
          | '/' :: '/' :: r2 =>
            parseAuthorityHost scheme (r2.takeWhile (fun c => !(authorityEnd c)))
          | _ => some ""

/-! ## Source classification (`isYoutubeURL`, `resolveTrackSource`) -/

/-- Embeds `isYoutubeURL` from `OptionalToolManager.ts` (lines 122-136). -/
def isYoutubeURL (value : String) : Bool :=
  match parseURLHostname (jsTrim value) with
  | some hostRaw =>
    let host := lowerStr hostRaw
    host == "youtube.com" || host == "www.youtube.com" || host == "m.youtube.com" ||
      host == "youtu.be" || strEndsWith host ".youtube.com"
  | none => false

structure ResolvedTrackSource where
  sourceType : String
  url : String
  title : Option String := none
  localPath : Option String := none
deriving Repr, DecidableEq

/-- Embeds `OptionalToolManager.resolveTrackSource`.  The youtube branch
(`ensureToolInstalled` + `downloadYoutubeAudio` + `pathToFileURL`) is
abstracted as the `pipeline` parameter; the returned `Bool` records
whether that extraction pipeline was invoked at all. -/
def resolveTrackSource (pipeline : String → String → Except String ResolvedTrackSource)
    (source playlistId : String) : Except String ResolvedTrackSource × Bool :=
  let trimmed := jsTrim source
  if !(isYoutubeURL trimmed) then
    (Except.ok { sourceType := "direct", url := trimmed }, false)
  else
    (pipeline trimmed playlistId, true)

/-- The claim's classification predicate, written from the spec's words:
the trimmed source parses as an absolute URL whose lowercased hostname is
exactly one of the listed hosts or ends with ".youtube.com". -/
def needsExtractionSpec (s : String) : Prop :=
  ∃ h, parseURLHostname (jsTrim s) = some h ∧
    (lowerStr h = "youtube.com" ∨ lowerStr h = "www.youtube.com" ∨
      lowerStr h = "m.youtube.com" ∨ lowerStr h = "youtu.be" ∨
      strEndsWith (lowerStr h) ".youtube.com" = true)

theorem isYoutubeURL_trim_iff (s : String) :
    isYoutubeURL (jsTrim s) = true ↔ needsExtractionSpec s := by
  unfold isYoutubeURL needsExtractionSpec
  rw [jsTrim_idem]
  cases hp : parseURLHostname (jsTrim s) with
  | none => simp
  | some h =>
    simp only [Option.some.injEq]
    constructor
    · intro hb
      refine ⟨h, rfl, ?_⟩
      simp only [Bool.or_eq_true, beq_iff_eq] at hb
      tauto
    · rintro ⟨h', rfl, hc⟩
      simp only [Bool.or_eq_true, beq_iff_eq]
      tauto

/-- C1: `resolveTrackSource` routes to the extraction pipeline exactly when
the trimmed source parses as a URL with a youtube hostname; every other
input returns a `direct` result carrying the trimmed input unchanged, with
the extraction pipeline (tool install + download) never invoked. -/
theorem claim_C1 (pipeline : String → String → Except String ResolvedTrackSource)
    (s playlistId : String) :
    (((resolveTrackSource pipeline s playlistId).2 = true) ↔ needsExtractionSpec s) ∧
    (¬ needsExtractionSpec s →
      resolveTrackSource pipeline s playlistId =
        (Except.ok { sourceType := "direct", url := jsTrim s }, false)) := by
  by_cases hy : isYoutubeURL (jsTrim s) = true
  · have h1 : resolveTrackSource pipeline s playlistId = (pipeline (jsTrim s) playlistId, true) := by
      simp [resolveTrackSource, hy]
    rw [h1]
    exact ⟨⟨fun _ => (isYoutubeURL_trim_iff s).mp hy, fun _ => rfl⟩,
      fun hns => absurd ((isYoutubeURL_trim_iff s).mp hy) hns⟩
  · have hy' : isYoutubeURL (jsTrim s) = false := by
      cases h : isYoutubeURL (jsTrim s)
      · rfl
      · exact absurd h hy
    have h1 : resolveTrackSource pipeline s playlistId =
        (Except.ok { sourceType := "direct", url := jsTrim s }, false) := by
      simp [resolveTrackSource, hy']
    rw [h1]
    have hnot : ¬ needsExtractionSpec s := fun h => hy ((isYoutubeURL_trim_iff s).mpr h)
    exact ⟨⟨fun hf => absurd hf (by simp), fun hn => absurd hn hnot⟩, fun _ => rfl⟩

def pipelineStub : String → String → Except String ResolvedTrackSource :=
  fun u _ => Except.ok { sourceType := "youtube", url := u }

set_option maxHeartbeats 2000000 in
theorem claim_C1_witness :
    (resolveTrackSource pipelineStub "https://youtu.be/abc123" "p1").2 = true ∧
    (resolveTrackSource pipelineStub "https://m.youtube.com/watch?v=abc123" "p1").2 = true ∧
    resolveTrackSource pipelineStub "https://example.com/song.mp3" "p1" =
      (Except.ok { sourceType := "direct", url := "https://example.com/song.mp3" }, false) ∧
    resolveTrackSource pipelineStub "/local/path/song.wav" "p1" =
      (Except.ok { sourceType := "direct", url := "/local/path/song.wav" }, false) := by
  refine ⟨?_, ?_, ?_, ?_⟩
  · exact (claim_C1 pipelineStub "https://youtu.be/abc123" "p1").1.mpr
      ⟨"youtu.be", by decide, by decide⟩
  · exact (claim_C1 pipelineStub "https://m.youtube.com/watch?v=abc123" "p1").1.mpr
      ⟨"m.youtube.com", by decide, by decide⟩
  · have h := (claim_C1 pipelineStub "https://example.com/song.mp3" "p1").2
      (by rintro ⟨h, hp, hc⟩
          rw [show parseURLHostname (jsTrim "https://example.com/song.mp3") =
            some "example.com" from by decide] at hp
          cases hp
          revert hc; decide)
    simpa using h
  · have h := (claim_C1 pipelineStub "/local/path/song.wav" "p1").2
      (by rintro ⟨h, hp, hc⟩
          rw [show parseURLHostname (jsTrim "/local/path/song.wav") = none from by decide] at hp
          cases hp)
    simpa using h

/-! ## Bounded-redirect HTTP fetch (`httpGetBuffer`) -/

/-- One HTTP exchange as seen by `https.get`: either the request errors at
the transport level, or a response arrives with an optional status code, an
optional `Location` header, and a body stream that either completes with the
concatenated chunks or errors mid-stream. -/
instance exceptDecEq {ε α : Type} [DecidableEq ε] [DecidableEq α] : DecidableEq (Except ε α)
  | .error e, .error f =>
    if h : e = f then isTrue (by rw [h]) else isFalse (by intro hh; cases hh; exact h rfl)
  | .error _, .ok _ => isFalse (by intro h; cases h)
  | .ok _, .error _ => isFalse (by intro h; cases h)
  | .ok a, .ok b =>
    if h : a = b then isTrue (by rw [h]) else isFalse (by intro hh; cases hh; exact h rfl)

inductive HttpResp where
  | transportErr (msg : String)
  | resp (status : Option Nat) (location : Option String) (body : Except String String)
deriving Repr, DecidableEq

/-- The JS redirect condition
`statusCode && statusCode >= 300 && statusCode < 400 && res.headers.location`
(truthiness: a zero / missing status and an empty / missing location are
falsy). -/
def redirectTaken (status : Option Nat) (location : Option String) : Bool :=
  (match status with
   | some v => !(v == 0) && decide (300 ≤ v) && decide (v < 400)
   | none => false) &&
  (match location with
   | some l => !(l == "")
   | none => false)

/-- `${statusCode ?? "unknown status"}` -/
def statusText : Option Nat → String
  | some v => toString v
  | none => "unknown status"

/-- Embeds `OptionalToolManager.httpGetBuffer` (lines 489-526). -/
def httpGetBuffer (respond : String → HttpResp) (url : String) (redirectCount : Nat) :
    Except String String :=
  if h5 : redirectCount > 5 then Except.error "Too many redirects while downloading tool"
  else
    match respond url with
    | .transportErr m => Except.error m
    | .resp status location body =>
      if redirectTaken status location then
        httpGetBuffer respond (location.getD "") (redirectCount + 1)
      else if status ≠ some 200 then
        Except.error ("Failed to download tool: " ++ statusText status)
      else body
termination_by 6 - redirectCount
decreasing_by omega

/-- A server answering a terminal 2xx status (201) that is not 200, with a
complete body. -/
def c7respond : String → HttpResp :=
  fun _ => HttpResp.resp (some 201) none (Except.ok "BODY")

/-- C7 counterexample: the claim says a terminal 2xx status returns the
complete response body, but `httpGetBuffer` succeeds only on exactly 200:
a terminal 201 with body "BODY" is rejected with a status error. -/
theorem claim_C7_counterexample :
    c7respond "https://example.com/a" = HttpResp.resp (some 201) none (Except.ok "BODY") ∧
    httpGetBuffer c7respond "https://example.com/a" 0 =
      Except.error "Failed to download tool: 201" ∧
    httpGetBuffer c7respond "https://example.com/a" 0 ≠ Except.ok "BODY" := by
  refine ⟨rfl, ?_, ?_⟩
  · rw [httpGetBuffer]; decide
  · rw [httpGetBuffer]; decide

/-- C7 (amended): `httpGetBuffer` fails on a terminal status other than
exactly 200 (including non-200 2xx), on a transport error, and with a
distinct too-many-redirects error beyond 5 hops; a terminal 200 yields the
body; 3xx responses with a non-empty Location are followed transparently. -/
theorem claim_C7 (respond : String → HttpResp) (url : String) (n : Nat) :
    (5 < n → httpGetBuffer respond url n = Except.error "Too many redirects while downloading tool") ∧
    (n ≤ 5 →
      (∀ m, respond url = HttpResp.transportErr m → httpGetBuffer respond url n = Except.error m) ∧
      (∀ status location body, respond url = HttpResp.resp status location body →
        (redirectTaken status location = true →
          ∃ loc, location = some loc ∧
            httpGetBuffer respond url n = httpGetBuffer respond loc (n + 1)) ∧
        (redirectTaken status location = false →
          (status = some 200 → httpGetBuffer respond url n = body) ∧
          (status ≠ some 200 →
            httpGetBuffer respond url n =
              Except.error ("Failed to download tool: " ++ statusText status))))) := by
  constructor
  · intro h5
    rw [httpGetBuffer]
    simp [h5]
  · intro h5
    have h5' : ¬ n > 5 := by omega
    constructor
    · intro m hm
      rw [httpGetBuffer]
      simp [h5', hm]
    · intro status location body hres
      constructor
      · intro hred
        have hloc : ∃ loc, location = some loc ∧ loc ≠ "" := by
          unfold redirectTaken at hred
          cases location with
          | none => simp at hred
          | some l =>
            refine ⟨l, rfl, ?_⟩
            intro hl
            subst hl
            simp at hred
        rcases hloc with ⟨loc, rfl, _⟩
        refine ⟨loc, rfl, ?_⟩
        rw [httpGetBuffer]
        simp [h5', hres, hred]
      · intro hred
        constructor
        · intro h200
          subst h200
          rw [httpGetBuffer]
          simp [h5', hres, hred]
        · intro h200
          rw [httpGetBuffer]
          simp [h5', hres, hred, h200]

/-- A two-hop redirect chain ending in a 200. -/
def c7respondChain : String → HttpResp := fun u =>
  if u == "https://a.example/x" then
    HttpResp.resp (some 302) (some "https://b.example/y") (Except.ok "")
  else HttpResp.resp (some 200) none (Except.ok "FULLBODY")

theorem claim_C7_witness :
    httpGetBuffer c7respondChain "https://a.example/x" 0 =
      httpGetBuffer c7respondChain "https://b.example/y" 1 ∧
    httpGetBuffer c7respondChain "https://b.example/y" 1 = Except.ok "FULLBODY" ∧
    httpGetBuffer c7respondChain "https://a.example/x" 6 =
      Except.error "Too many redirects while downloading tool" := by
  refine ⟨?_, ?_, ?_⟩
  · obtain ⟨loc, hloc, heq⟩ :=
      (((claim_C7 c7respondChain "https://a.example/x" 0).2 (by omega)).2
        (some 302) (some "https://b.example/y") (Except.ok "") (by decide)).1 (by decide)
    cases hloc
    exact heq
  · exact ((((claim_C7 c7respondChain "https://b.example/y" 1).2 (by omega)).2
      (some 200) none (Except.ok "FULLBODY") (by decide)).2 (by decide)).1 rfl
  · exact (claim_C7 c7respondChain "https://a.example/x" 6).1 (by omega)

/-! ## Filesystem, local manifest and tool installation (`ensureToolInstalled`)

The filesystem is an association list from path to file content; `chmod`
and `mkdir` are no-ops in the model (no claim concerns permissions or
directories).  SHA-256 hashing and release-signature verification are
deterministic oracles (`hash`, `verifySig`); network fetches go through the
`httpGetBuffer` model above.  A `downloads` counter instruments each
invocation of `downloadToFile` so that "performs zero downloads" is
expressible. -/

abbrev Fs := List (String × String)

def Fs.lookup : Fs → String → Option String
  | [], _ => none
  | (k, v) :: rest, p => if k == p then some v else Fs.lookup rest p

def Fs.write (fs : Fs) (p c : String) : Fs :=
  (p, c) :: fs.filter (fun kv => !(kv.1 == p))

def Fs.remove (fs : Fs) (p : String) : Fs :=
  fs.filter (fun kv => !(kv.1 == p))

theorem Fs.lookup_filter_ne (fs : Fs) (p q : String) (h : q ≠ p) :
    Fs.lookup (fs.filter (fun kv => !(kv.1 == p))) q = Fs.lookup fs q := by
  induction fs with
  | nil => rfl
  | cons kv rest ih =>
    obtain ⟨k, v⟩ := kv
    by_cases hk : k = p
    · subst hk
      have hq : (k == q) = false := by
        simp only [beq_eq_false_iff_ne]
        exact fun hkq => h hkq.symm
      simp [List.filter_cons, Fs.lookup, hq, ih]
    · have hk' : (k == p) = false := by simpa using hk
      simp [List.filter_cons, hk', Fs.lookup, ih]

theorem Fs.lookup_remove_ne (fs : Fs) (p q : String) (h : q ≠ p) :
    Fs.lookup (Fs.remove fs p) q = Fs.lookup fs q :=
  Fs.lookup_filter_ne fs p q h

theorem Fs.lookup_remove_self (fs : Fs) (p : String) :
    Fs.lookup (Fs.remove fs p) p = none := by
  induction fs with
  | nil => rfl
  | cons kv rest ih =>
    obtain ⟨k, v⟩ := kv
    by_cases hk : k = p
    · subst hk
      simpa [Fs.remove, List.filter_cons] using ih
    · have hk' : (k == p) = false := by simpa using hk
      simpa [Fs.remove, List.filter_cons, hk', Fs.lookup] using ih

theorem Fs.lookup_write_self (fs : Fs) (p c : String) :
    Fs.lookup (Fs.write fs p c) p = some c := by
  simp [Fs.write, Fs.lookup]

theorem Fs.lookup_write_ne (fs : Fs) (p c q : String) (h : q ≠ p) :
    Fs.lookup (Fs.write fs p c) q = Fs.lookup fs q := by
  have hq : (p == q) = false := by
    simp only [beq_eq_false_iff_ne]
    exact fun hpq => h hpq.symm
  simp only [Fs.write, Fs.lookup, hq, if_false]
  exact Fs.lookup_filter_ne fs p q h

inductive ToolName where
  | ytDlp
  | ffmpeg
deriving Repr, DecidableEq

/-- The string value of the `ToolName` union type. -/
def ToolName.str : ToolName → String
  | .ytDlp => "yt-dlp"
  | .ffmpeg => "ffmpeg"

structure ToolRelease where
  version : String
  url : String
  sha256 : String
  binaryName : String
  signature : Option String := none
  publicKeyPem : Option String := none
deriving Repr, DecidableEq

structure ToolManifestEntry where
  version : String
  sha256 : String
  binaryPath : String
  sourceUrl : String
  installedAt : String
  lastVerifiedAt : String
deriving Repr, DecidableEq

/-- `ToolManifest` (`tools.json` content): association list over tools. -/
structure ToolManifest where
  tools : List (ToolName × ToolManifestEntry)
deriving Repr, DecidableEq

def ToolManifest.lookup (m : ToolManifest) (t : ToolName) : Option ToolManifestEntry :=
  match m.tools.find? (fun p => p.1 == t) with
  | some p => some p.2
  | none => none

/-- `manifest.tools[tool] = entry` -/
def ToolManifest.set (m : ToolManifest) (t : ToolName) (e : ToolManifestEntry) : ToolManifest :=
  ⟨(t, e) :: m.tools.filter (fun p => !(p.1 == t))⟩

theorem ToolManifest.lookup_set_self (m : ToolManifest) (t : ToolName) (e : ToolManifestEntry) :
    (m.set t e).lookup t = some e := by
  simp [ToolManifest.set, ToolManifest.lookup, List.find?]

/-- Per-process mutable world of `OptionalToolManager`, as touched by
`ensureToolInstalled`: the files on disk, the parsed local manifest
(`tools.json`, whose reads/writes are modelled as direct field access since
its atomic write discipline is not at issue here), and an instrumentation
counter of how many artifact downloads were performed. -/
structure SysState where
  fs : Fs
  manifest : ToolManifest
  downloads : Nat
deriving Repr, DecidableEq

/-- Ambient effects of one `ensureToolInstalled` call: the network
(`respond`, consumed through `httpGetBuffer`), `new Date().toISOString()`
(`now`) and the `Date.now()` value used in the temporary file name
(`tempStamp`). -/
structure InstallEnv where
  respond : String → HttpResp
  now : String
  tempStamp : String

def userDataDir : String := "userData"
def baseDir : String := userDataDir ++ "/optional-tools"
def binDir : String := baseDir ++ "/bin"
def tmpDir : String := baseDir ++ "/tmp"
def mediaDir : String := userDataDir ++ "/playlist-media"

def binaryPathFor (release : ToolRelease) : String := binDir ++ "/" ++ release.binaryName

def tempPathFor (env : InstallEnv) (release : ToolRelease) : String :=
  tmpDir ++ "/" ++ release.binaryName ++ "-" ++ env.tempStamp ++ ".tmp"

/-- The fast-path guard of `ensureToolInstalled`: the manifest entry matches
the resolved release (`validExistingInstall`) and re-hashing the on-disk
binary reproduces the declared hash. -/
def existingInstallVerified (hash : String → String) (tool : ToolName)
    (release : ToolRelease) (st : SysState) : Bool :=
  match st.manifest.lookup tool, Fs.lookup st.fs (binaryPathFor release) with
  | some e, some c =>
    e.binaryPath == binaryPathFor release && e.version == release.version &&
      e.sha256 == release.sha256 && hash c == release.sha256
  | _, _ => false

def optStrTruthy : Option String → Bool
  | some s => !(s == "")
  | none => false

/-- The Commit step: `chmod` + atomic `rename(tempPath, binaryPath)` +
manifest record refresh. -/
def commitInstall (env : InstallEnv) (tool : ToolName) (release : ToolRelease)
    (body : String) (st : SysState) : Except String String × SysState :=
  (Except.ok (binaryPathFor release),
    { fs := Fs.write (Fs.remove st.fs (tempPathFor env release)) (binaryPathFor release) body,
      manifest := st.manifest.set tool
        { version := release.version, sha256 := release.sha256,
          binaryPath := binaryPathFor release, sourceUrl := release.url,
          installedAt := env.now, lastVerifiedAt := env.now },
      downloads := st.downloads })

/-- The Download → Verify → Commit path of `ensureToolInstalled` (the body
of its `try`/`catch`; every failure removes the temporary file before the
error propagates). -/
def installFresh (hash : String → String) (verifySig : String → String → String → Bool)
    (env : InstallEnv) (tool : ToolName) (release : ToolRelease) (st : SysState) :
    Except String String × SysState :=
  let tempPath := tempPathFor env release
  let st1 : SysState := { st with downloads := st.downloads + 1 }
  match httpGetBuffer env.respond release.url 0 with
  | Except.error e => (Except.error e, { st1 with fs := Fs.remove st1.fs tempPath })
  | Except.ok body =>
    let st2 : SysState := { st1 with fs := Fs.write st1.fs tempPath body }
    if hash body ≠ release.sha256 then
      (Except.error ("Checksum mismatch while installing " ++ tool.str),
        { st2 with fs := Fs.remove st2.fs tempPath })
    else if optStrTruthy release.signature && optStrTruthy release.publicKeyPem then
      if verifySig (tool.str ++ "@" ++ release.version ++ ":" ++ hash body)
          (release.publicKeyPem.getD "") (release.signature.getD "") then
        commitInstall env tool release body st2
      else
        (Except.error ("Signature verification failed for " ++ tool.str),
          { st2 with fs := Fs.remove st2.fs tempPath })
    else commitInstall env tool release body st2

/-- Embeds `OptionalToolManager.ensureToolInstalled` (lines 199-253), with
the release already resolved (`getRelease` is modelled separately).  Returns
the outcome together with the post-call state (JS exceptions do not roll
back state). -/
def ensureToolInstalled (hash : String → String) (verifySig : String → String → String → Bool)
    (env : InstallEnv) (tool : ToolName) (release : ToolRelease) (st : SysState) :
    Except String String × SysState :=
  if existingInstallVerified hash tool release st then
    match st.manifest.lookup tool with
    | some e =>
      (Except.ok (binaryPathFor release),
        { st with manifest := st.manifest.set tool { e with lastVerifiedAt := env.now } })
    | none => installFresh hash verifySig env tool release st
  else installFresh hash verifySig env tool release st

theorem string_data_append_assoc (a b c : String) :
    (a ++ b ++ c).data = a.data ++ (b.data ++ c.data) := by
  rw [String.data_append, String.data_append, List.append_assoc]

/-- The final binary directory and the scratch directory are disjoint, so a
path under one is never a path under the other. -/
theorem binaryPath_ne_tempPath (a b : String) :
    binDir ++ "/" ++ a ≠ tmpDir ++ "/" ++ b := by
  intro h
  have h2 : (binDir ++ "/" ++ a).data = (tmpDir ++ "/" ++ b).data := congrArg String.data h
  rw [string_data_append_assoc, string_data_append_assoc] at h2
  have hlen : (binDir.data).length = (tmpDir.data).length := by decide
  have h3 := congrArg (fun l => List.take binDir.data.length l) h2
  simp only at h3
  rw [List.take_left] at h3
  rw [hlen, List.take_left] at h3
  exact absurd h3 (by decide)

/-- C2: if the downloaded bytes hash differently from the release's declared
hash (and the fast path did not apply, so a download actually happens), the
call fails with the checksum-mismatch error, the content at the final
binary path is untouched, and the temporary file is gone. -/
theorem claim_C2 (hash : String → String) (verifySig : String → String → String → Bool)
    (env : InstallEnv) (tool : ToolName) (release : ToolRelease) (st : SysState) (body : String)
    (hfast : existingInstallVerified hash tool release st = false)
    (hfetch : httpGetBuffer env.respond release.url 0 = Except.ok body)
    (hbad : hash body ≠ release.sha256) :
    (ensureToolInstalled hash verifySig env tool release st).1 =
        Except.error ("Checksum mismatch while installing " ++ tool.str) ∧
    Fs.lookup (ensureToolInstalled hash verifySig env tool release st).2.fs
        (binaryPathFor release) =
      Fs.lookup st.fs (binaryPathFor release) ∧
    Fs.lookup (ensureToolInstalled hash verifySig env tool release st).2.fs
        (tempPathFor env release) = none := by
  have hne : binaryPathFor release ≠ tempPathFor env release := by
    unfold binaryPathFor tempPathFor
    exact binaryPath_ne_tempPath release.binaryName (release.binaryName ++ "-" ++ env.tempStamp ++ ".tmp")
  have hmain : ensureToolInstalled hash verifySig env tool release st =
      (Except.error ("Checksum mismatch while installing " ++ tool.str),
        { fs := Fs.remove (Fs.write st.fs (tempPathFor env release) body) (tempPathFor env release),
          manifest := st.manifest, downloads := st.downloads + 1 }) := by
    unfold ensureToolInstalled
    rw [hfast]
    simp only [Bool.false_eq_true, if_false]
    unfold installFresh
    rw [hfetch]
    dsimp only
    rw [if_pos hbad]
  rw [hmain]
  refine ⟨rfl, ?_, ?_⟩
  · rw [Fs.lookup_remove_ne _ _ _ hne, Fs.lookup_write_ne _ _ _ _ hne]
  · exact Fs.lookup_remove_self _ _

def c2hash : String → String := fun s => "h(" ++ s ++ ")"
def c2verify : String → String → String → Bool := fun _ _ _ => true
def c2env : InstallEnv :=
  { respond := fun _ => HttpResp.resp (some 200) none (Except.ok "DOWNLOADED"),
    now := "2026-01-01T00:00:00.000Z", tempStamp := "1700000000000" }
def c2release : ToolRelease :=
  { version := "1.0", url := "https://host/tool", sha256 := "expectedhash",
    binaryName := "yt-dlp" }
def c2state : SysState := { fs := [], manifest := ⟨[]⟩, downloads := 0 }

theorem claim_C2_witness :
    (ensureToolInstalled c2hash c2verify c2env ToolName.ytDlp c2release c2state).1 =
        Except.error "Checksum mismatch while installing yt-dlp" ∧
    Fs.lookup (ensureToolInstalled c2hash c2verify c2env ToolName.ytDlp c2release c2state).2.fs
        (binaryPathFor c2release) = Fs.lookup c2state.fs (binaryPathFor c2release) ∧
    Fs.lookup (ensureToolInstalled c2hash c2verify c2env ToolName.ytDlp c2release c2state).2.fs
        (tempPathFor c2env c2release) = none := by
  have h := claim_C2 c2hash c2verify c2env ToolName.ytDlp c2release c2state "DOWNLOADED"
    (by decide) (by rw [httpGetBuffer]; decide) (by decide)
  exact h

/-- Post-condition of the Commit step: the returned path is the final
binary path, and the resulting state satisfies the fast-path guard for the
same release. -/
theorem commitInstall_ok_post (hash : String → String) (env : InstallEnv) (tool : ToolName)
    (release : ToolRelease) (body : String) (st2 : SysState) (path1 : String) (st1 : SysState)
    (hhash : hash body = release.sha256)
    (h : commitInstall env tool release body st2 = (Except.ok path1, st1)) :
    path1 = binaryPathFor release ∧ existingInstallVerified hash tool release st1 = true := by
  unfold commitInstall at h
  injection h with ha hb
  injection ha with ha
  refine ⟨ha.symm, ?_⟩
  rw [← hb]
  unfold existingInstallVerified
  rw [ToolManifest.lookup_set_self]
  dsimp only
  rw [Fs.lookup_write_self]
  simp [hhash]

/-- Post-condition of a successful `ensureToolInstalled` call: it returned
the final binary path and left a state on which the fast-path guard holds. -/
theorem ensureToolInstalled_ok_post (hash : String → String)
    (verifySig : String → String → String → Bool) (env : InstallEnv) (tool : ToolName)
    (release : ToolRelease) (st : SysState) (path1 : String) (st1 : SysState)
    (h1 : ensureToolInstalled hash verifySig env tool release st = (Except.ok path1, st1)) :
    path1 = binaryPathFor release ∧ existingInstallVerified hash tool release st1 = true := by
  unfold ensureToolInstalled at h1
  by_cases hg : existingInstallVerified hash tool release st = true
  · rw [if_pos hg] at h1
    cases hm : st.manifest.lookup tool with
    | none =>
      unfold existingInstallVerified at hg
      cases hf : Fs.lookup st.fs (binaryPathFor release) <;> rw [hm, hf] at hg <;> simp at hg
    | some e =>
      rw [hm] at h1
      injection h1 with ha hb
      injection ha with ha
      refine ⟨ha.symm, ?_⟩
      rw [← hb]
      unfold existingInstallVerified at hg ⊢
      rw [ToolManifest.lookup_set_self]
      dsimp only
      rw [hm] at hg
      cases hf : Fs.lookup st.fs (binaryPathFor release) with
      | none => rw [hf] at hg; simp at hg
      | some c => rw [hf] at hg; exact hg
  · rw [if_neg hg] at h1
    unfold installFresh at h1
    cases hfetch : httpGetBuffer env.respond release.url 0 with
    | error e =>
      rw [hfetch] at h1
      dsimp only at h1
      injection h1 with ha _
      exact Except.noConfusion ha
    | ok body =>
      rw [hfetch] at h1
      dsimp only at h1
      by_cases hbad : hash body ≠ release.sha256
      · rw [if_pos hbad] at h1
        injection h1 with ha _
        exact Except.noConfusion ha
      · rw [if_neg hbad] at h1
        push_neg at hbad
        by_cases hsig : (optStrTruthy release.signature && optStrTruthy release.publicKeyPem) = true
        · rw [if_pos hsig] at h1
          by_cases hv : verifySig (tool.str ++ "@" ++ release.version ++ ":" ++ hash body)
              (release.publicKeyPem.getD "") (release.signature.getD "") = true
          · rw [if_pos hv] at h1
            exact commitInstall_ok_post hash env tool release body _ path1 st1 hbad h1
          · rw [if_neg hv] at h1
            injection h1 with ha _
            exact Except.noConfusion ha
        · rw [if_neg hsig] at h1
          exact commitInstall_ok_post hash env tool release body _ path1 st1 hbad h1

/-- C5: after any successful install of `release`, a second
`ensureToolInstalled` call for the unchanged release on the untouched state
performs no download (the counter and the filesystem are unchanged),
returns the same binary path, and only rewrites the tool's manifest entry
with a fresh `lastVerifiedAt`, keeping `version`, `sha256`, `binaryPath`,
`sourceUrl` and `installedAt`. -/
theorem claim_C5 (hash : String → String) (verifySig : String → String → String → Bool)
    (env1 env2 : InstallEnv) (tool : ToolName) (release : ToolRelease) (st : SysState)
    (path1 : String) (st1 : SysState)
    (h1 : ensureToolInstalled hash verifySig env1 tool release st = (Except.ok path1, st1)) :
    ∃ e1, st1.manifest.lookup tool = some e1 ∧
      ensureToolInstalled hash verifySig env2 tool release st1 =
        (Except.ok path1,
          { fs := st1.fs, manifest := st1.manifest.set tool { e1 with lastVerifiedAt := env2.now },
            downloads := st1.downloads }) := by
  obtain ⟨hpath, hguard⟩ :=
    ensureToolInstalled_ok_post hash verifySig env1 tool release st path1 st1 h1
  cases hm : st1.manifest.lookup tool with
  | none =>
    unfold existingInstallVerified at hguard
    cases hf : Fs.lookup st1.fs (binaryPathFor release) <;> rw [hm, hf] at hguard <;>
      simp at hguard
  | some e1 =>
    refine ⟨e1, rfl, ?_⟩
    unfold ensureToolInstalled
    rw [if_pos hguard, hm, hpath]

def c5hash : String → String := fun s => s
def c5verify : String → String → String → Bool := fun _ _ _ => true
def c5env1 : InstallEnv :=
  { respond := fun _ => HttpResp.resp (some 200) none (Except.ok "BODYX"),
    now := "2026-01-01T00:00:00.000Z", tempStamp := "1700000000000" }
def c5env2 : InstallEnv :=
  { respond := fun _ => HttpResp.transportErr "network gone",
    now := "2026-01-02T09:30:00.000Z", tempStamp := "1700000099999" }
def c5release : ToolRelease :=
  { version := "2026.02.21", url := "https://host/yt-dlp", sha256 := "BODYX",
    binaryName := "yt-dlp" }
def c5state0 : SysState := { fs := [], manifest := ⟨[]⟩, downloads := 0 }
def c5entry : ToolManifestEntry :=
  { version := "2026.02.21", sha256 := "BODYX",
    binaryPath := "userData/optional-tools/bin/yt-dlp", sourceUrl := "https://host/yt-dlp",
    installedAt := "2026-01-01T00:00:00.000Z", lastVerifiedAt := "2026-01-01T00:00:00.000Z" }
def c5st1 : SysState :=
  { fs := [("userData/optional-tools/bin/yt-dlp", "BODYX")],
    manifest := ⟨[(ToolName.ytDlp, c5entry)]⟩, downloads := 1 }

theorem claim_C5_witness :
    ∃ e1, c5st1.manifest.lookup ToolName.ytDlp = some e1 ∧
      ensureToolInstalled c5hash c5verify c5env2 ToolName.ytDlp c5release c5st1 =
        (Except.ok "userData/optional-tools/bin/yt-dlp",
          { fs := c5st1.fs,
            manifest := c5st1.manifest.set ToolName.ytDlp { e1 with lastVerifiedAt := c5env2.now },
            downloads := c5st1.downloads }) := by
  have h1 : ensureToolInstalled c5hash c5verify c5env1 ToolName.ytDlp c5release c5state0 =
      (Except.ok "userData/optional-tools/bin/yt-dlp", c5st1) := by
    unfold ensureToolInstalled installFresh
    simp only [show httpGetBuffer c5env1.respond c5release.url 0 = Except.ok "BODYX" from by
      rw [httpGetBuffer]; decide]
    decide
  exact claim_C5 c5hash c5verify c5env1 c5env2 ToolName.ytDlp c5release c5state0
    "userData/optional-tools/bin/yt-dlp" c5st1 h1

/-! ## JSON values and the remote catalog (`parseAndValidateRemoteManifest`) -/

/-- JSON values as produced by `JSON.parse` (numbers restricted to the
integers appearing in catalogs). -/
inductive Json where
  | null
  | bool (b : Bool)
  | num (n : Int)
  | str (s : String)
  | arr (elems : List Json)
  | obj (fields : List (String × Json))
deriving Repr

def lookupField : List (String × Json) → String → Option Json
  | [], _ => none
  | (k, v) :: rest, key => if k == key then some v else lookupField rest key

/-- Property access `j.key` (undefined = `none`). -/
def jsGet (j : Json) (key : String) : Option Json :=
  match j with
  | .obj fields => lookupField fields key
  | _ => none

/-- JS truthiness of a JSON value. -/
def jsTruthy : Json → Bool
  | .null => false
  | .bool b => b
  | .num n => !(n == 0)
  | .str s => !(s == "")
  | .arr _ => true
  | .obj _ => true

/-- `typeof v === "object"` for a JSON value (`null` included). -/
def jsIsObjectType : Json → Bool
  | .null => true
  | .arr _ => true
  | .obj _ => true
  | _ => false

def isNumField (j : Json) (key : String) : Bool :=
  match jsGet j key with
  | some (.num _) => true
  | _ => false

def escapeJsonChar (c : Char) : String :=
  if c == '"' then "\\\""
  else if c == '\\' then "\\\\"
  else if c == '\n' then "\\n"
  else if c == '\r' then "\\r"
  else if c == '\t' then "\\t"
  else String.mk [c]

def escapeJsonString (s : String) : String :=
  s.data.foldl (fun acc c => acc ++ escapeJsonChar c) ""

mutual
/-- Model of `JSON.stringify` (insertion order, no whitespace). -/
def jsonStringify : Json → String
  | .null => "null"
  | .bool true => "true"
  | .bool false => "false"
  | .num n => toString n
  | .str s => "\"" ++ escapeJsonString s ++ "\""
  | .arr xs => "[" ++ stringifyElems xs ++ "]"
  | .obj fs => "\x7b" ++ stringifyFields fs ++ "\x7d"

def stringifyElems : List Json → String
  | [] => ""
  | [x] => jsonStringify x
  | x :: y :: xs => jsonStringify x ++ "," ++ stringifyElems (y :: xs)

def stringifyFields : List (String × Json) → String
  | [] => ""
  | [(k, v)] => "\"" ++ escapeJsonString k ++ "\":" ++ jsonStringify v
  | (k, v) :: f :: fs =>
    "\"" ++ escapeJsonString k ++ "\":" ++ jsonStringify v ++ "," ++ stringifyFields (f :: fs)
end

/-- `JSON.stringify({version: parsed.version, generatedAt: parsed.generatedAt,
tools: parsed.tools})` — an absent `generatedAt` is omitted like JS
`undefined`. -/
def canonicalSignaturePayload (j : Json) : String :=
  jsonStringify (Json.obj
    ((match jsGet j "version" with | some v => [("version", v)] | none => []) ++
     (match jsGet j "generatedAt" with | some g => [("generatedAt", g)] | none => []) ++
     (match jsGet j "tools" with | some t => [("tools", t)] | none => [])))

/-- Embeds `parseAndValidateRemoteManifest` (lines 297-326), after
`JSON.parse` has produced the value `j`.  `pubKey` is the configured
`KENKU_TOOL_MANIFEST_PUBLIC_KEY_PEM`; `verify` is the `crypto.verify`
oracle applied to (payload, key, base64 signature).  A truthy but
non-string signature models the `Buffer.from` type error thrown there. -/
def parseAndValidateRemoteManifest (pubKey : Option String)
    (verify : String → String → String → Bool) (j : Json) : Except String Json :=
  if !(jsTruthy j) || !(jsIsObjectType j) || !(isNumField j "version") then
    Except.error "Invalid tools manifest"
  else if !(match jsGet j "tools" with
            | some t => jsTruthy t && jsIsObjectType t
            | none => false) then
    Except.error "Invalid tools manifest payload"
  else
    match jsGet j "signature", pubKey with
    | some sigVal, some pk =>
      if jsTruthy sigVal then
        match sigVal with
        | .str sigStr =>
          if verify (canonicalSignaturePayload j) pk sigStr then Except.ok j
          else Except.error "Tools manifest signature verification failed"
        | _ => Except.error "Tools manifest signature malformed"
      else Except.ok j
    | _, _ => Except.ok j

/-- Structural validity: the first two checks of
`parseAndValidateRemoteManifest` pass. -/
def manifestStructValid (j : Json) : Bool :=
  jsTruthy j && jsIsObjectType j && isNumField j "version" &&
    (match jsGet j "tools" with
     | some t => jsTruthy t && jsIsObjectType t
     | none => false)

/-- The catalog carries a signature: the `signature` field is present and
truthy (the code's `parsed.signature &&` guard; an absent, empty or
otherwise falsy signature field is ignored). -/
def manifestSigPresent (j : Json) : Bool :=
  match jsGet j "signature" with
  | some s => jsTruthy s
  | none => false

/-- The outcome is a rejection for a signature reason. -/
def isSignatureRejection (r : Except String Json) : Bool :=
  match r with
  | Except.error m =>
    m == "Tools manifest signature verification failed" ||
      m == "Tools manifest signature malformed"
  | Except.ok _ => false

/-- The carried signature verifies over the canonical
`{version, generatedAt, tools}` payload under key `pk`. -/
def sigVerifiesSpec (verify : String → String → String → Bool) (pk : String) (j : Json) : Prop :=
  ∃ s, jsGet j "signature" = some (Json.str s) ∧
    verify (canonicalSignaturePayload j) pk s = true

/-- C4: for a structurally valid catalog, a signature-reason rejection
happens exactly when a verification key is configured, the catalog carries
a (truthy) signature, and that signature fails to verify over the canonical
payload; in particular a catalog without a signature field is accepted even
when a key is configured. -/
theorem claim_C4 (pubKey : Option String) (verify : String → String → String → Bool)
    (j : Json) (hstruct : manifestStructValid j = true) :
    (isSignatureRejection (parseAndValidateRemoteManifest pubKey verify j) = true ↔
      (∃ pk, pubKey = some pk ∧ manifestSigPresent j = true ∧ ¬ sigVerifiesSpec verify pk j)) ∧
    (jsGet j "signature" = none → parseAndValidateRemoteManifest pubKey verify j = Except.ok j) := by
  unfold manifestStructValid at hstruct
  have h1 : (!(jsTruthy j) || !(jsIsObjectType j) || !(isNumField j "version")) = false := by
    simp only [Bool.and_eq_true] at hstruct
    simp [hstruct.1.1.1, hstruct.1.1.2, hstruct.1.2]
  have h2 : (!(match jsGet j "tools" with
              | some t => jsTruthy t && jsIsObjectType t
              | none => false)) = false := by
    simp only [Bool.and_eq_true] at hstruct
    simp [hstruct.2]
  have hred : parseAndValidateRemoteManifest pubKey verify j =
      (match jsGet j "signature", pubKey with
       | some sigVal, some pk =>
         if jsTruthy sigVal then
           match sigVal with
           | .str sigStr =>
             if verify (canonicalSignaturePayload j) pk sigStr then Except.ok j
             else Except.error "Tools manifest signature verification failed"
           | _ => Except.error "Tools manifest signature malformed"
         else Except.ok j
       | _, _ => Except.ok j) := by
    unfold parseAndValidateRemoteManifest
    rw [h1, h2]
    simp only [Bool.false_eq_true, if_false]
  constructor
  · rw [hred]
    cases hsig : jsGet j "signature" with
    | none =>
      cases pubKey with
      | none => simp [isSignatureRejection, manifestSigPresent, hsig]
      | some pk => simp [isSignatureRejection, manifestSigPresent, hsig]
    | some sigVal =>
      cases pubKey with
      | none => simp [isSignatureRejection, manifestSigPresent, hsig]
      | some pk =>
        dsimp only
        by_cases htr : jsTruthy sigVal = true
        · rw [if_pos htr]
          cases sigVal with
          | str sigStr =>
            dsimp only
            by_cases hv : verify (canonicalSignaturePayload j) pk sigStr = true
            · rw [if_pos hv]
              simp only [isSignatureRejection, Bool.false_eq_true, false_iff]
              rintro ⟨pk', hpk', _, hnv⟩
              injection hpk' with hpk'
              subst hpk'
              exact hnv ⟨sigStr, hsig, hv⟩
            · rw [if_neg hv]
              simp only [isSignatureRejection]
              constructor
              · intro _
                refine ⟨pk, rfl, by simp [manifestSigPresent, hsig, htr], ?_⟩
                rintro ⟨s, hs, hvs⟩
                rw [hsig] at hs
                injection hs with hs
                injection hs with hs
                subst hs
                exact hv hvs
              · intro _; decide
          | null => simp [jsTruthy] at htr
          | bool b =>
            cases b with
            | false => simp [jsTruthy] at htr
            | true =>
              dsimp only
              simp only [isSignatureRejection]
              constructor
              · intro _
                refine ⟨pk, rfl, by simp [manifestSigPresent, hsig, htr], ?_⟩
                rintro ⟨s, hs, _⟩
                rw [hsig] at hs
                exact Json.noConfusion (Option.some.inj hs)
              · intro _; decide
          | num n =>
            dsimp only
            simp only [isSignatureRejection]
            constructor
            · intro _
              refine ⟨pk, rfl, by simp [manifestSigPresent, hsig, htr], ?_⟩
              rintro ⟨s, hs, _⟩
              rw [hsig] at hs
              exact Json.noConfusion (Option.some.inj hs)
            · intro _; decide
          | arr xs =>
            dsimp only
            simp only [isSignatureRejection]
            constructor
            · intro _
              refine ⟨pk, rfl, by simp [manifestSigPresent, hsig, htr], ?_⟩
              rintro ⟨s, hs, _⟩
              rw [hsig] at hs
              exact Json.noConfusion (Option.some.inj hs)
            · intro _; decide
          | obj fs =>
            dsimp only
            simp only [isSignatureRejection]
            constructor
            · intro _
              refine ⟨pk, rfl, by simp [manifestSigPresent, hsig, htr], ?_⟩
              rintro ⟨s, hs, _⟩
              rw [hsig] at hs
              exact Json.noConfusion (Option.some.inj hs)
            · intro _; decide
        · rw [if_neg htr]
          simp only [isSignatureRejection, Bool.false_eq_true, false_iff]
          rintro ⟨pk', _, hpres, _⟩
          unfold manifestSigPresent at hpres
          rw [hsig] at hpres
          exact htr hpres
  · intro hnone
    rw [hred, hnone]

def c4json : Json :=
  Json.obj [("version", Json.num 1), ("generatedAt", Json.str "2026-01-01"),
    ("tools", Json.obj [])]

def c4verify : String → String → String → Bool := fun _ _ _ => false

theorem claim_C4_witness :
    parseAndValidateRemoteManifest (some "PUBKEY") c4verify c4json = Except.ok c4json :=
  (claim_C4 (some "PUBKEY") c4verify c4json (by decide)).2 rfl

/-! ## Remote manifest cache (`getRemoteManifest`) -/

def REMOTE_MANIFEST_CACHE_TTL_MS : Int := 1000 * 60 * 60 * 6

structure CachedRemoteManifest where
  fetchedAt : String
  manifest : Json
deriving Repr

/-- The two caches: the in-memory field `remoteManifestMemoryCache` and the
parsed content of the on-disk cache file (`none` = absent or unreadable, as
`readRemoteManifestDiskCache` collapses both). -/
structure CacheState where
  mem : Option CachedRemoteManifest
  disk : Option CachedRemoteManifest
deriving Repr

/-- Ambient effects of one `getRemoteManifest` call: `Date.now()`,
`Date.parse` (`none` = NaN), the fetched-and-`JSON.parse`d catalog asset
(`Except.error` = network error or unparsable JSON), the configured public
key, `crypto.verify`, and `new Date().toISOString()`. -/
structure ManifestEnv where
  now : Int
  parseDate : String → Option Int
  fetched : Except String Json
  pubKey : Option String
  verify : String → String → String → Bool
  nowISO : String

/-- `Number.isFinite(fetchedAt) && now - fetchedAt < REMOTE_MANIFEST_CACHE_TTL_MS` -/
def cacheFresh (env : ManifestEnv) (c : CachedRemoteManifest) : Bool :=
  match env.parseDate c.fetchedAt with
  | some t => decide (env.now - t < REMOTE_MANIFEST_CACHE_TTL_MS)
  | none => false

/-- The fallible part of the `try` block: fetch, parse and validate. -/
def remoteFetchParsed (env : ManifestEnv) : Except String Json :=
  match env.fetched with
  | Except.error e => Except.error e
  | Except.ok j => parseAndValidateRemoteManifest env.pubKey env.verify j

/-- Network step of `getRemoteManifest` with its `catch` fallback to the
previously read disk cache. -/
def getRemoteManifestFetch (env : ManifestEnv) (st : CacheState)
    (diskCache : Option CachedRemoteManifest) : Option Json × CacheState :=
  match remoteFetchParsed env with
  | Except.ok manifest =>
    let cache : CachedRemoteManifest := { fetchedAt := env.nowISO, manifest := manifest }
    (some manifest, { mem := some cache, disk := some cache })
  | Except.error _ =>
    match diskCache with
    | some d => (some d.manifest, { mem := some d, disk := st.disk })
    | none => (none, st)

def getRemoteManifestDiskStep (env : ManifestEnv) (st : CacheState) :
    Option Json × CacheState :=
  match st.disk with
  | some d =>
    if cacheFresh env d then (some d.manifest, { mem := some d, disk := st.disk })
    else getRemoteManifestFetch env st (some d)
  | none => getRemoteManifestFetch env st none

/-- Embeds `OptionalToolManager.getRemoteManifest` (lines 259-295):
memory cache (TTL), disk cache (TTL, promoted to memory), network fetch
(refreshing both caches), catch-fallback to the stale disk cache. -/
def getRemoteManifest (env : ManifestEnv) (st : CacheState) : Option Json × CacheState :=
  match st.mem with
  | some c =>
    if cacheFresh env c then (some c.manifest, st)
    else getRemoteManifestDiskStep env st
  | none => getRemoteManifestDiskStep env st

def memFresh (env : ManifestEnv) (st : CacheState) : Bool :=
  match st.mem with
  | some c => cacheFresh env c
  | none => false

def diskFresh (env : ManifestEnv) (st : CacheState) : Bool :=
  match st.disk with
  | some d => cacheFresh env d
  | none => false

/-- In every program-reachable state the memory cache is `null` or holds
exactly the catalog last read from / written to disk; `getRemoteManifest`
preserves this invariant. -/
theorem getRemoteManifest_preserves_mem_disk (env : ManifestEnv) (st : CacheState)
    (hinv : st.mem = none ∨ st.mem = st.disk) :
    (getRemoteManifest env st).2.mem = none ∨
      (getRemoteManifest env st).2.mem = (getRemoteManifest env st).2.disk := by
  cases hm : st.mem with
  | some c =>
    cases hf : cacheFresh env c with
    | true =>
      simp only [getRemoteManifest, hm, hf, if_true]
      rcases hinv with h | h
      · rw [hm] at h; exact absurd h (by simp)
      · rw [hm] at h; exact Or.inr h
    | false =>
      cases hd : st.disk with
      | some d =>
        cases hdf : cacheFresh env d with
        | true => simp [getRemoteManifest, getRemoteManifestDiskStep, hm, hf, hd, hdf]
        | false =>
          cases hr : remoteFetchParsed env with
          | ok m =>
            simp [getRemoteManifest, getRemoteManifestDiskStep, getRemoteManifestFetch,
              hm, hf, hd, hdf, hr]
          | error e =>
            simp [getRemoteManifest, getRemoteManifestDiskStep, getRemoteManifestFetch,
              hm, hf, hd, hdf, hr]
      | none =>
        cases hr : remoteFetchParsed env with
        | ok m =>
          simp [getRemoteManifest, getRemoteManifestDiskStep, getRemoteManifestFetch,
            hm, hf, hd, hr]
        | error e =>
          simp only [getRemoteManifest, getRemoteManifestDiskStep, getRemoteManifestFetch,
            hm, hf, hd, hr, Bool.false_eq_true, if_false]
          rcases hinv with h | h
          · rw [hm] at h; exact absurd h (by simp)
          · rw [hm, hd] at h; exact absurd h (by simp)
  | none =>
    cases hd : st.disk with
    | some d =>
      cases hdf : cacheFresh env d with
      | true => simp [getRemoteManifest, getRemoteManifestDiskStep, hm, hd, hdf]
      | false =>
        cases hr : remoteFetchParsed env with
        | ok m =>
          simp [getRemoteManifest, getRemoteManifestDiskStep, getRemoteManifestFetch,
            hm, hd, hdf, hr]
        | error e =>
          simp [getRemoteManifest, getRemoteManifestDiskStep, getRemoteManifestFetch,
            hm, hd, hdf, hr]
    | none =>
      cases hr : remoteFetchParsed env with
      | ok m =>
        simp [getRemoteManifest, getRemoteManifestDiskStep, getRemoteManifestFetch,
          hm, hd, hr]
      | error e =>
        simp [getRemoteManifest, getRemoteManifestDiskStep, getRemoteManifestFetch,
          hm, hd, hr]

/-- C3: when the fetch/parse/validate/signature step fails, the on-disk
cache is left byte-identical and the in-memory cached catalog (when one was
present — in reachable states it coincides with the disk copy, see
`getRemoteManifest_preserves_mem_disk`) is left unchanged. -/
theorem claim_C3 (env : ManifestEnv) (st : CacheState)
    (hinv : st.mem = none ∨ st.mem = st.disk)
    (hfail : ∃ e, remoteFetchParsed env = Except.error e) :
    (getRemoteManifest env st).2.disk = st.disk ∧
    (∀ c, st.mem = some c → (getRemoteManifest env st).2.mem = some c) := by
  obtain ⟨e, he⟩ := hfail
  cases hm : st.mem with
  | some c =>
    have hcd : st.disk = some c := by
      rcases hinv with h | h
      · rw [hm] at h; exact absurd h (by simp)
      · rw [hm] at h; exact h.symm
    cases hf : cacheFresh env c with
    | true =>
      refine ⟨by simp [getRemoteManifest, hm, hf], ?_⟩
      intro c' hc'
      injection hc' with hc'
      subst hc'
      simp [getRemoteManifest, hm, hf]
    | false =>
      refine ⟨?_, ?_⟩
      · simp [getRemoteManifest, getRemoteManifestDiskStep, getRemoteManifestFetch,
          hm, hf, hcd, he]
      · intro c' hc'
        injection hc' with hc'
        subst hc'
        simp [getRemoteManifest, getRemoteManifestDiskStep, getRemoteManifestFetch,
          hm, hf, hcd, he]
  | none =>
    refine ⟨?_, ?_⟩
    · cases hd : st.disk with
      | some d =>
        cases hdf : cacheFresh env d with
        | true => simp [getRemoteManifest, getRemoteManifestDiskStep, hm, hd, hdf]
        | false =>
          simp [getRemoteManifest, getRemoteManifestDiskStep, getRemoteManifestFetch,
            hm, hd, hdf, he]
      | none =>
        simp [getRemoteManifest, getRemoteManifestDiskStep, getRemoteManifestFetch,
          hm, hd, he]
    · intro c' hc'
      exact absurd hc' (by simp)

def c3cache : CachedRemoteManifest :=
  { fetchedAt := "2026-01-01T00:00:00.000Z",
    manifest := Json.obj [("version", Json.num 1), ("tools", Json.obj [])] }

def c3env : ManifestEnv :=
  { now := 1767225600000, parseDate := fun _ => none,
    fetched := Except.error "network down", pubKey := none,
    verify := fun _ _ _ => false, nowISO := "2026-01-02T00:00:00.000Z" }

def c3state : CacheState := { mem := some c3cache, disk := some c3cache }

theorem claim_C3_witness :
    (getRemoteManifest c3env c3state).2.disk = c3state.disk ∧
    (getRemoteManifest c3env c3state).2.mem = some c3cache := by
  have h := claim_C3 c3env c3state (Or.inr rfl) ⟨"network down", rfl⟩
  exact ⟨h.1, h.2 c3cache rfl⟩

/-- C6: when neither cache is fresh and the fetch/parse/validate/signature
step fails, `getRemoteManifest` returns the on-disk cached catalog
regardless of its age when one exists and `null` otherwise — it never
propagates the failure (by construction it is a total function whose only
fallible steps are inside `remoteFetchParsed`, consumed by the `catch`
branch of `getRemoteManifestFetch`). -/
theorem claim_C6 (env : ManifestEnv) (st : CacheState)
    (hmem : memFresh env st = false) (hdisk : diskFresh env st = false)
    (hfail : ∃ e, remoteFetchParsed env = Except.error e) :
    (getRemoteManifest env st).1 = st.disk.map (fun d => d.manifest) := by
  obtain ⟨e, he⟩ := hfail
  cases hm : st.mem with
  | some c =>
    simp only [memFresh, hm] at hmem
    cases hd : st.disk with
    | some d =>
      simp only [diskFresh, hd] at hdisk
      simp [getRemoteManifest, getRemoteManifestDiskStep, getRemoteManifestFetch,
        hm, hmem, hd, hdisk, he]
    | none =>
      simp [getRemoteManifest, getRemoteManifestDiskStep, getRemoteManifestFetch,
        hm, hmem, hd, he]
  | none =>
    cases hd : st.disk with
    | some d =>
      simp only [diskFresh, hd] at hdisk
      simp [getRemoteManifest, getRemoteManifestDiskStep, getRemoteManifestFetch,
        hm, hd, hdisk, he]
    | none =>
      simp [getRemoteManifest, getRemoteManifestDiskStep, getRemoteManifestFetch,
        hm, hd, he]

def c6cache : CachedRemoteManifest :=
  { fetchedAt := "2020-05-05T00:00:00.000Z",
    manifest := Json.obj [("version", Json.num 3), ("tools", Json.obj [])] }

def c6env : ManifestEnv :=
  { now := 1767225600000, parseDate := fun _ => some 0,
    fetched := Except.error "HTTP 500", pubKey := none,
    verify := fun _ _ _ => false, nowISO := "2026-01-02T00:00:00.000Z" }

def c6state : CacheState := { mem := none, disk := some c6cache }

theorem claim_C6_witness :
    (getRemoteManifest c6env c6state).1 = c6state.disk.map (fun d => d.manifest) :=
  claim_C6 c6env c6state (by decide)
    (by simp only [diskFresh, c6state, c6env, cacheFresh]; decide) ⟨"HTTP 500", rfl⟩

/-! ## Release resolution (`BUILTIN_TOOL_RELEASES`, `toValidToolRelease`,
`getRelease`) -/

/-- The compiled-in release table (lines 58-108): six yt-dlp entries keyed
by platform, and an empty table for ffmpeg. -/
def BUILTIN_TOOL_RELEASES : ToolName → List (String × ToolRelease)
  | .ytDlp =>
    [("darwin-arm64",
      { version := "2026.02.21",
        url := "https://github.com/yt-dlp/yt-dlp/releases/download/2026.02.21/yt-dlp_macos",
        sha256 := "13dc66e13e87c187e16bf0def71b35f118bc06145907739d5549d213a9e3b9e5",
        binaryName := "yt-dlp" }),
     ("darwin-x64",
      { version := "2026.02.21",
        url := "https://github.com/yt-dlp/yt-dlp/releases/download/2026.02.21/yt-dlp_macos",
        sha256 := "13dc66e13e87c187e16bf0def71b35f118bc06145907739d5549d213a9e3b9e5",
        binaryName := "yt-dlp" }),
     ("linux-x64",
      { version := "2026.02.21",
        url := "https://github.com/yt-dlp/yt-dlp/releases/download/2026.02.21/yt-dlp_linux",
        sha256 := "057098b1390e8d4931e143eb889e9bbe088f17e40a2936f31ee218909f806f5f",
        binaryName := "yt-dlp" }),
     ("linux-arm64",
      { version := "2026.02.21",
        url := "https://github.com/yt-dlp/yt-dlp/releases/download/2026.02.21/yt-dlp_linux_aarch64",
        sha256 := "7571d3a9bb1ef31a490cd33c37341002006748078ed4d7fa617b0b6ce495f965",
        binaryName := "yt-dlp" }),
     ("win32-x64",
      { version := "2026.02.21",
        url := "https://github.com/yt-dlp/yt-dlp/releases/download/2026.02.21/yt-dlp.exe",
        sha256 := "72a91fe064d5758c976e94f877c24369477dd3e395614b5b270dd5400a035ffa",
        binaryName := "yt-dlp.exe" }),
     ("win32-arm64",
      { version := "2026.02.21",
        url := "https://github.com/yt-dlp/yt-dlp/releases/download/2026.02.21/yt-dlp_arm64.exe",
        sha256 := "17771a25b11af4bc8324de006b39fde7ff62deb8a95bf9000a182769f7b0450b",
        binaryName := "yt-dlp.exe" })]
  | .ffmpeg => []

def lookupPlatform : List (String × ToolRelease) → String → Option ToolRelease
  | [], _ => none
  | (k, v) :: rest, key => if k == key then some v else lookupPlatform rest key

def strContainsChar (s : String) (c : Char) : Bool := s.data.contains c

def jsOptStr : Option Json → Option String
  | some (Json.str s) => some s
  | _ => none

/-- Embeds `toValidToolRelease` (lines 328-356): structural validation of a
remote release descriptor, rejecting path separators in the binary name and
lowercasing the hash. -/
def toValidToolRelease (value : Option Json) : Option ToolRelease :=
  match value with
  | none => none
  | some v =>
    if !(jsTruthy v) || !(jsIsObjectType v) then none
    else
      match jsGet v "version", jsGet v "url", jsGet v "sha256", jsGet v "binaryName" with
      | some (Json.str ver), some (Json.str url), some (Json.str sha), some (Json.str bn) =>
        if strContainsChar bn '/' || strContainsChar bn '\\' || jsTrim bn == "" then none
        else some
          { version := ver, url := url, sha256 := lowerStr sha, binaryName := bn,
            signature := jsOptStr (jsGet v "signature"),
            publicKeyPem := jsOptStr (jsGet v "publicKeyPem") }
      | _, _, _, _ => none

/-- `remoteManifest?.tools?.[tool]?.[platformKey]` -/
def remoteReleaseLookup (m : Option Json) (tool : ToolName) (platformKey : String) :
    Option Json :=
  match m with
  | none => none
  | some j =>
    match jsGet j "tools" with
    | none => none
    | some t =>
      match jsGet t tool.str with
      | none => none
      | some p => jsGet p platformKey

/-- Embeds `getRelease` (lines 180-197): validated remote entry first, then
the built-in table, else the unsupported-platform error. -/
def getRelease (env : ManifestEnv) (platformKey : String) (tool : ToolName) (st : CacheState) :
    Except String ToolRelease × CacheState :=
  let res := getRemoteManifest env st
  match toValidToolRelease (remoteReleaseLookup res.1 tool platformKey) with
  | some r => (Except.ok r, res.2)
  | none =>
    match lookupPlatform (BUILTIN_TOOL_RELEASES tool) platformKey with
    | some r => (Except.ok r, res.2)
    | none =>
      (Except.error ("Unsupported platform for " ++ tool.str ++ ": " ++ platformKey), res.2)

/-- `ensureToolInstalled` with its leading `getRelease` step. -/
def installTool (hash : String → String) (verifySig : String → String → String → Bool)
    (ienv : InstallEnv) (menv : ManifestEnv) (platformKey : String) (tool : ToolName)
    (cst : CacheState) (sst : SysState) : Except String String × CacheState × SysState :=
  match getRelease menv platformKey tool cst with
  | (Except.ok release, cst2) =>
    let r := ensureToolInstalled hash verifySig ienv tool release sst
    (r.1, cst2, r.2)
  | (Except.error e, cst2) => (Except.error e, cst2, sst)

/-- C10: the built-in table has no ffmpeg entry for any platform, so
whenever the remote catalog yields no valid ffmpeg release for the current
platform (unavailable catalog, missing entry, or failed release
validation), `getRelease` — and hence any install of ffmpeg — fails with
the unsupported-platform error, on every platform. -/
theorem claim_C10 (hash : String → String) (verifySig : String → String → String → Bool)
    (ienv : InstallEnv) (env : ManifestEnv) (platformKey : String) (cst : CacheState)
    (sst : SysState)
    (hremote : toValidToolRelease
      (remoteReleaseLookup (getRemoteManifest env cst).1 ToolName.ffmpeg platformKey) = none) :
    (getRelease env platformKey ToolName.ffmpeg cst).1 =
        Except.error ("Unsupported platform for ffmpeg: " ++ platformKey) ∧
    (installTool hash verifySig ienv env platformKey ToolName.ffmpeg cst sst).1 =
        Except.error ("Unsupported platform for ffmpeg: " ++ platformKey) := by
  have hstr : "Unsupported platform for " ++ ToolName.ffmpeg.str ++ ": " ++ platformKey =
      "Unsupported platform for ffmpeg: " ++ platformKey := by
    have : "Unsupported platform for " ++ ToolName.ffmpeg.str ++ ": " =
        "Unsupported platform for ffmpeg: " := by decide
    rw [show "Unsupported platform for " ++ ToolName.ffmpeg.str ++ ": " ++ platformKey =
      ("Unsupported platform for " ++ ToolName.ffmpeg.str ++ ": ") ++ platformKey from rfl, this]
  have hrel : getRelease env platformKey ToolName.ffmpeg cst =
      (Except.error ("Unsupported platform for ffmpeg: " ++ platformKey),
        (getRemoteManifest env cst).2) := by
    unfold getRelease
    dsimp only
    rw [hremote]
    dsimp only
    rw [show lookupPlatform (BUILTIN_TOOL_RELEASES ToolName.ffmpeg) platformKey = none from rfl]
    rw [hstr]
  refine ⟨by rw [hrel], ?_⟩
  unfold installTool
  rw [hrel]

def c10env : ManifestEnv :=
  { now := 1767225600000, parseDate := fun _ => none,
    fetched := Except.error "offline", pubKey := none,
    verify := fun _ _ _ => false, nowISO := "2026-01-02T00:00:00.000Z" }

def c10cst : CacheState := { mem := none, disk := none }

theorem claim_C10_witness :
    (getRelease c10env "linux-x64" ToolName.ffmpeg c10cst).1 =
        Except.error "Unsupported platform for ffmpeg: linux-x64" ∧
    (installTool c5hash c5verify c5env2 c10env "linux-x64" ToolName.ffmpeg c10cst c5state0).1 =
        Except.error "Unsupported platform for ffmpeg: linux-x64" :=
  claim_C10 c5hash c5verify c5env2 c10env "linux-x64" c10cst c5state0 rfl

/-! ## Extraction output parsing (`downloadYoutubeAudio`) -/

/-- JS `String.prototype.split` on a single character (keeps empty
segments). -/
def splitCharList (c : Char) : List Char → List (List Char)
  | [] => [[]]
  | x :: xs =>
    let r := splitCharList c xs
    if x == c then [] :: r
    else
      match r with
      | h :: t => (x :: h) :: t
      | [] => [[x]]

def splitOnNewline (s : String) : List String := (splitCharList '\n' s.data).map String.mk

/-- `stdout.split(/\r?\n/).map(trim).filter(Boolean)` — splitting on LF
suffices because the trim removes a trailing CR. -/
def ytOutputLines (stdout : String) : List String :=
  ((splitOnNewline stdout).map jsTrim).filter (fun l => !(l == ""))

/-- Model of Node `path.basename` (posix separators). -/
def pathBasename (p : String) : String :=
  match ((splitCharList '/' p.data).filter (fun l => !(l.isEmpty))).getLast? with
  | some comp => String.mk comp
  | none => if p.data.contains '/' then "/" else p

/-- Model of Node `path.extname`. -/
def pathExtname (p : String) : String :=
  let b := (pathBasename p).data
  if !(b.contains '.') then ""
  else
    let afterDot := (b.reverse.takeWhile (fun c => !(c == '.'))).reverse
    if afterDot.length + 1 == b.length then ""
    else String.mk ('.' :: afterDot)

/-- `path.basename(filePath, path.extname(filePath))`. -/
def pathBasenameWithoutExt (p : String) : String :=
  let b := pathBasename p
  let e := pathExtname p
  if e == "" then b
  else String.mk (b.data.take (b.data.length - e.data.length))

/-- `playlistId.replace(/[^a-zA-Z0-9-_]/g, "") || "default"` -/
def safePlaylistIdOf (playlistId : String) : String :=
  let filtered := String.mk (playlistId.data.filter
    (fun c => c.isAlpha || c.isDigit || c == '-' || c == '_'))
  if filtered == "" then "default" else filtered

/-- The fixed yt-dlp invocation arguments. -/
def ytDlpArgs (targetDir sourceUrl : String) : List String :=
  ["--no-playlist", "--no-progress", "--no-warnings",
   "-f", "bestaudio[ext=m4a]/bestaudio",
   "-P", targetDir,
   "-o", "%(title).120B-%(id)s.%(ext)s",
   "--print", "title",
   "--print", "after_move:filepath",
   sourceUrl]

/-- Result of `execBinary`: exit code (`code ?? 1`), captured stdout and
stderr. -/
structure ExecResult where
  code : Int
  stdout : String
  stderr : String
deriving Repr, DecidableEq

/-- Embeds `downloadYoutubeAudio` (lines 383-428).  `exec` models the
subprocess, `pathExists` the filesystem check; the result is
`(title, filePath)`. -/
def downloadYoutubeAudio (exec : String → List String → ExecResult)
    (pathExists : String → Bool) (ytDlpPath sourceUrl playlistId : String) :
    Except String (String × String) :=
  let safePlaylistId := safePlaylistIdOf playlistId
  let targetDir := mediaDir ++ "/" ++ safePlaylistId
  let r := exec ytDlpPath (ytDlpArgs targetDir sourceUrl)
  if r.code ≠ 0 then
    Except.error (if r.stderr == "" then "Failed to download YouTube audio" else r.stderr)
  else
    let lines := ytOutputLines r.stdout
    match lines.getLast? with
    | none => Except.error "Unable to locate downloaded track file"
    | some filePath =>
      if !(pathExists filePath) then Except.error "Unable to locate downloaded track file"
      else
        let title :=
          match lines.head? with
          | some t => if t == "" then pathBasenameWithoutExt filePath else t
          | none => pathBasenameWithoutExt filePath
        Except.ok (title, filePath)

/-- The claim's title rule: the first non-blank trimmed line, falling back
to the file path's base name with its extension stripped when the title
line is empty. -/
def titleSpecOf (lines : List String) (filePath : String) : String :=
  match lines.head? with
  | some t => if t == "" then pathBasenameWithoutExt filePath else t
  | none => pathBasenameWithoutExt filePath

/-- A run that exits non-zero with an *empty* stderr. -/
def c8exec : String → List String → ExecResult := fun _ _ => { code := 1, stdout := "", stderr := "" }

def c8exists : String → Bool := fun _ => true

/-- C8 counterexample: the claim says a non-zero exit fails "with the
process's stderr as the message"; with an empty stderr the code substitutes
a fixed default message instead of the (empty) stderr. -/
theorem claim_C8_counterexample :
    c8exec "/bins/yt-dlp" (ytDlpArgs (mediaDir ++ "/" ++ safePlaylistIdOf "pl") "https://youtu.be/x") =
      { code := 1, stdout := "", stderr := "" } ∧
    downloadYoutubeAudio c8exec c8exists "/bins/yt-dlp" "https://youtu.be/x" "pl" =
      Except.error "Failed to download YouTube audio" ∧
    downloadYoutubeAudio c8exec c8exists "/bins/yt-dlp" "https://youtu.be/x" "pl" ≠
      Except.error "" := by
  refine ⟨rfl, by decide, by decide⟩

/-- C8 (amended): with exit code 0, stdout is split into non-blank trimmed
lines, the last line is the returned file path (the call fails when there
is none or the file does not exist), the title is the first line with the
base-name fallback; a non-zero exit fails with stderr as the message when
stderr is non-empty, and with a fixed default message when stderr is
empty. -/
theorem claim_C8 (exec : String → List String → ExecResult) (pathExists : String → Bool)
    (ytDlpPath sourceUrl playlistId : String) :
    (let r := exec ytDlpPath (ytDlpArgs (mediaDir ++ "/" ++ safePlaylistIdOf playlistId) sourceUrl);
     let res := downloadYoutubeAudio exec pathExists ytDlpPath sourceUrl playlistId;
     let lines := ytOutputLines r.stdout;
     (r.code ≠ 0 →
        res = Except.error
          (if r.stderr == "" then "Failed to download YouTube audio" else r.stderr)) ∧
     (r.code = 0 →
        (lines.getLast? = none → res = Except.error "Unable to locate downloaded track file") ∧
        (∀ fp, lines.getLast? = some fp →
          (pathExists fp = false → res = Except.error "Unable to locate downloaded track file") ∧
          (pathExists fp = true → res = Except.ok (titleSpecOf lines fp, fp))))) := by
  dsimp only
  constructor
  · intro hc
    unfold downloadYoutubeAudio
    dsimp only
    rw [if_pos hc]
  · intro hc
    constructor
    · intro hnone
      unfold downloadYoutubeAudio
      dsimp only
      rw [if_neg (by simp [hc]), hnone]
    · intro fp hfp
      constructor
      · intro hex
        unfold downloadYoutubeAudio
        dsimp only
        rw [if_neg (by simp [hc]), hfp]
        dsimp only
        rw [hex]
        rfl
      · intro hex
        unfold downloadYoutubeAudio
        dsimp only
        rw [if_neg (by simp [hc]), hfp]
        dsimp only
        rw [hex]
        rfl

def c8exec2 : String → List String → ExecResult := fun _ _ =>
  { code := 0, stdout := "My Title\nsome-progress noise stripped\n/media/pl/My Title-abc.m4a\n",
    stderr := "" }

def c8exists2 : String → Bool := fun p => p == "/media/pl/My Title-abc.m4a"

theorem claim_C8_witness :
    downloadYoutubeAudio c8exec2 c8exists2 "/bins/yt-dlp" "https://youtu.be/abc" "pl" =
      Except.ok ("My Title", "/media/pl/My Title-abc.m4a") := by
  have h := (((claim_C8 c8exec2 c8exists2 "/bins/yt-dlp" "https://youtu.be/abc" "pl").2
      (by decide)).2 "/media/pl/My Title-abc.m4a" (by decide)).2 (by decide)
  rw [h]
  decide

/-! ## Progress-event reconciliation (`TrackAdd.tsx`, `handleProgress`) -/

structure TrackSourceProgress where
  stage : String
  message : String
  progress : Option Int
deriving Repr, DecidableEq

/-- The `setProgress` reducer of `TrackAdd.tsx` (lines 55-91): adopt the
incoming event, but coerce a lower numeric progress up to the previous one,
and keep the previous numeric value for a number-free `download-audio`
event. -/
def mergeProgress (prev : Option TrackSourceProgress) (incoming : TrackSourceProgress) :
    TrackSourceProgress :=
  match prev with
  | none => incoming
  | some p =>
    match p.progress, incoming.progress with
    | some prevValue, some incomingValue =>
      if incomingValue < prevValue then { incoming with progress := some prevValue }
      else incoming
    | some prevValue, none =>
      if incoming.stage == "download-audio" then { incoming with progress := some prevValue }
      else incoming
    | none, _ => incoming

/-- The `handleProgress` listener: events are dropped unless they carry a
truthy request id equal to the dialog's (`incomingRequestId &&
incomingRequestId === requestId`). -/
def handleProgressEvent (requestId : Option String) (st : Option TrackSourceProgress)
    (ev : String × TrackSourceProgress) : Option TrackSourceProgress :=
  if !(ev.1 == "") && (some ev.1 == requestId) then some (mergeProgress st ev.2) else st

/-- The consumer-visible progress state after a sequence of delivered
events (initial state `null`). -/
def runProgressEvents (requestId : Option String)
    (evs : List (String × TrackSourceProgress)) : Option TrackSourceProgress :=
  evs.foldl (handleProgressEvent requestId) none

/-- The spec's high-water mark of a list of numeric progress values. -/
def listMaxInt : List Int → Option Int
  | [] => none
  | v :: vs => some (vs.foldl max v)

def progressValues (evs : List TrackSourceProgress) : List Int :=
  evs.filterMap (fun e => e.progress)

theorem mergeProgress_numeric (p incoming : TrackSourceProgress) (a v : Int)
    (hp : p.progress = some a) (hv : incoming.progress = some v) :
    mergeProgress (some p) incoming =
      { stage := incoming.stage, message := incoming.message, progress := some (max a v) } := by
  unfold mergeProgress
  dsimp only
  rw [hp, hv]
  dsimp only
  by_cases h : v < a
  · rw [if_pos h]
    have : max a v = a := by omega
    rw [this]
  · rw [if_neg h]
    have : max a v = v := by omega
    cases incoming
    simp_all

theorem getLast?_getD_cons {α : Type} (e x : α) (rest : List α) :
    ((e :: rest).getLast?).getD x = (rest.getLast?).getD e := by
  induction rest generalizing e with
  | nil => rfl
  | cons r t ih =>
    rw [List.getLast?_cons_cons]
    cases h : (r :: t).getLast? with
    | none => exact absurd (List.getLast?_eq_none_iff.mp h) (by simp)
    | some ℓ => rfl

theorem runProgress_aux (rid : String) (hrid : rid ≠ "") :
    ∀ (evs : List TrackSourceProgress) (acc : TrackSourceProgress) (a : Int),
      acc.progress = some a → (∀ e ∈ evs, e.progress.isSome = true) →
      ∃ fin,
        List.foldl (handleProgressEvent (some rid)) (some acc)
            (evs.map (fun e => (rid, e))) = some fin ∧
        fin.stage = (evs.getLast?.getD acc).stage ∧
        fin.message = (evs.getLast?.getD acc).message ∧
        fin.progress = some (List.foldl max a (progressValues evs)) := by
  intro evs
  induction evs with
  | nil =>
    intro acc a ha _
    exact ⟨acc, rfl, rfl, rfl, by simp [progressValues, ha]⟩
  | cons e rest ih =>
    intro acc a ha hall
    obtain ⟨v, hv⟩ : ∃ v, e.progress = some v := by
      have := hall e (by simp)
      cases he : e.progress with
      | none => rw [he] at this; simp at this
      | some v => exact ⟨v, rfl⟩
    have hhandle : handleProgressEvent (some rid) (some acc) (rid, e) =
        some { stage := e.stage, message := e.message, progress := some (max a v) } := by
      unfold handleProgressEvent
      rw [if_pos (by simp [hrid])]
      rw [mergeProgress_numeric acc e a v ha hv]
    obtain ⟨fin, hrun, hstage, hmsg, hprog⟩ :=
      ih { stage := e.stage, message := e.message, progress := some (max a v) } (max a v) rfl
        (fun e' he' => hall e' (by simp [he']))
    refine ⟨fin, ?_, ?_, ?_, ?_⟩
    · rw [List.map_cons, List.foldl_cons, hhandle]
      exact hrun
    · rw [hstage, getLast?_getD_cons e acc rest]
      cases hl : rest.getLast? with
      | none => rfl
      | some ℓ => rfl
    · rw [hmsg, getLast?_getD_cons e acc rest]
      cases hl : rest.getLast? with
      | none => rfl
      | some ℓ => rfl
    · rw [hprog]
      have : progressValues (e :: rest) = v :: progressValues rest := by
        unfold progressValues
        rw [List.filterMap_cons, hv]
      rw [this, List.foldl_cons]

/-- C9: for matching request ids and events all carrying numeric progress,
the visible state after delivering the whole sequence adopts the last
event's stage and message while its numeric progress is the high-water mark
(maximum) of all delivered values — so 40 followed by 30 shows 40. -/
theorem claim_C9 (rid : String) (hrid : rid ≠ "") (evs : List TrackSourceProgress)
    (hne : evs ≠ []) (hall : ∀ e ∈ evs, e.progress.isSome = true) :
    ∃ fin,
      runProgressEvents (some rid) (evs.map (fun e => (rid, e))) = some fin ∧
      (∃ last, evs.getLast? = some last ∧ fin.stage = last.stage ∧ fin.message = last.message) ∧
      fin.progress = listMaxInt (progressValues evs) := by
  cases evs with
  | nil => exact absurd rfl hne
  | cons e rest =>
    obtain ⟨v, hv⟩ : ∃ v, e.progress = some v := by
      have := hall e (by simp)
      cases he : e.progress with
      | none => rw [he] at this; simp at this
      | some v => exact ⟨v, rfl⟩
    have hhandle : handleProgressEvent (some rid) none (rid, e) = some e := by
      unfold handleProgressEvent
      rw [if_pos (by simp [hrid])]
      rfl
    obtain ⟨fin, hrun, hstage, hmsg, hprog⟩ :=
      runProgress_aux rid hrid rest e v hv (fun e' he' => hall e' (by simp [he']))
    refine ⟨fin, ?_, ?_, ?_⟩
    · unfold runProgressEvents
      rw [List.map_cons, List.foldl_cons, hhandle]
      exact hrun
    · cases rest with
      | nil => exact ⟨e, by simp, hstage, hmsg⟩
      | cons r t =>
        refine ⟨((r :: t).getLast?).getD e, ?_, hstage, hmsg⟩
        rw [List.getLast?_cons_cons]
        cases h : (r :: t).getLast? with
        | none => exact absurd (List.getLast?_eq_none_iff.mp h) (by simp)
        | some ℓ => rfl
    · rw [hprog]
      have : progressValues (e :: rest) = v :: progressValues rest := by
        unfold progressValues
        rw [List.filterMap_cons, hv]
      rw [this]
      rfl

def c9ev1 : TrackSourceProgress :=
  { stage := "download-audio", message := "Downloading audio (40%)", progress := some 40 }

def c9ev2 : TrackSourceProgress :=
  { stage := "download-audio", message := "Downloading audio (30%)", progress := some 30 }

theorem claim_C9_witness :
    (∃ fin,
      runProgressEvents (some "req-1") ([c9ev1, c9ev2].map (fun e => ("req-1", e))) = some fin ∧
      (∃ last, ([c9ev1, c9ev2] : List TrackSourceProgress).getLast? = some last ∧
        fin.stage = last.stage ∧ fin.message = last.message) ∧
      fin.progress = listMaxInt (progressValues [c9ev1, c9ev2])) ∧
    listMaxInt (progressValues [c9ev1, c9ev2]) = some 40 :=
  ⟨claim_C9 "req-1" (by decide) [c9ev1, c9ev2] (by decide) (by decide), by decide⟩

end KenkuTools
